import Mathlib

/-!
# Verification of the shutdown orchestrator (`src/cleanup.py`)

Shallow embedding of `cleanup()` and `kill_all_threads()` from
`src/cleanup.py`.  The module's state (the process-wide
`running_subprocesses` set, the `thread_executor` handle, the live asyncio
tasks, and the OS process tree inspected by the reaper) is made explicit as
a `CleanupState` record; the two functions become state transformers that
additionally emit a trace of the externally observable actions (signals
sent, suspension points entered, stream-close attempts, error reports).

External-facility behaviour that the Python code merely invokes is encoded
as fields of the records it acts on:
* whether `asyncio.wait_for(proc.wait(), timeout=3)` returns before the
  timeout (`exitsWithinTimeout`),
* whether a signal call (`terminate`/`kill`, both on asyncio subprocesses
  and on `psutil` children) raises — e.g. `psutil.Process.terminate` raises
  `NoSuchProcess` when the process exited after enumeration, and
  `asyncio` `Process.terminate` can raise `ProcessLookupError`,
* whether `stream.close()` raises (`closeFails`),
* whether a `psutil` child exits inside the reaper's shared
  `wait_procs(children, timeout=3)` window (`exitsInWindow`),
* each asyncio task's settled outcome after cancellation.

Following the specification's termination model, a forceful kill is
"immediate/unconditional": a successful `kill` resolves the exit status at
once (encoded as exit code `-9`).

Exceptions that the Python code does not catch propagate as `Except.error`;
exceptions it catches (`asyncio.TimeoutError` around the wait,
`Exception` around each `stream.close()`, task outcomes captured by
`asyncio.gather(..., return_exceptions=True)`) are absorbed in the model
exactly where the `try/except` blocks sit in the source.
-/

namespace CleanupModel

/-- One I/O stream handle of a tracked subprocess (`proc.stdout` /
`proc.stderr` / `proc.stdin` when not `None`).  `closeFails` records
whether `stream.close()` would raise on this handle. -/
structure StreamHandle where
  isOpen : Bool
  closeFails : Bool
deriving Repr, DecidableEq

/-- A member of the `running_subprocesses` set: an asyncio subprocess
handle together with the behaviour of the OS process behind it.
`returncode = none` means the process has not been reaped yet (Python's
`proc.returncode is None`). -/
structure TrackedSubprocess where
  pid : Nat
  returncode : Option Int
  stdin : Option StreamHandle
  stdout : Option StreamHandle
  stderr : Option StreamHandle
  exitsWithinTimeout : Bool
  terminateRaises : Bool
  killRaises : Bool
deriving Repr, DecidableEq

/-- A task outcome collected by the gather join: normal completion, a
cancellation acknowledgement (`asyncio.CancelledError`), or some other
raised exception carrying an error code. -/
inductive TaskOutcome where
  | ok : TaskOutcome
  | cancelled : TaskOutcome
  | err : Nat → TaskOutcome
deriving Repr, DecidableEq

/-- A live asyncio task as seen by `asyncio.all_tasks()`.  `isCurrent`
marks the orchestrator's own task (`asyncio.current_task()`); `outcome` is
what `asyncio.gather(..., return_exceptions=True)` collects for it after
the cancellation request. -/
structure AsyncTask where
  tid : Nat
  isCurrent : Bool
  outcome : TaskOutcome
deriving Repr, DecidableEq

/-- A child in the OS process tree enumerated by the reaper
(`psutil.Process().children(recursive=True)`), with the behaviour of the
`psutil` signalling calls on it.  `exitsInWindow` says whether it exits
inside the shared `psutil.wait_procs(children, timeout=3)` window. -/
structure ReaperChild where
  pid : Nat
  exitsInWindow : Bool
  terminateRaises : Bool
  killRaises : Bool
deriving Repr, DecidableEq

/-- The worker-thread pool handle (`ThreadPoolExecutor`); `shutdownRaises`
records whether `shutdown(wait=True)` would raise on it. -/
structure PoolHandle where
  shutdownRaises : Bool
deriving Repr, DecidableEq

/-- Which of the three stream attributes a close attempt touches. -/
inductive StreamName where
  | stdinS : StreamName
  | stdoutS : StreamName
  | stderrS : StreamName
deriving Repr, DecidableEq

/-- Externally observable actions of one run, in order of occurrence.
Suspension points carry their bound: `some n` for an explicit timeout of
`n` time units, `none` for an unbounded wait; `sleepFor n` is the fixed
delay `asyncio.sleep` (`n` in tenths of a time unit). -/
inductive Action where
  | shutdownPool : Action
  | terminateSig : Nat → Action
  | waitProc : Nat → Option Nat → Action
  | killSig : Nat → Action
  | closeAttempt : Nat → StreamName → Action
  | sleepFor : Nat → Action
  | cancelTask : Nat → Action
  | gatherJoin : Option Nat → Action
  | logTaskError : Nat → Action
  | reaperTerminate : Nat → Action
  | reaperWait : Option Nat → Action
  | reaperKill : Nat → Action
deriving Repr, DecidableEq

/-- Uncaught Python exceptions, tagged by the call that raised them. -/
inductive Err where
  | poolShutdownErr : Err
  | termErr : Nat → Err
  | killErr : Nat → Err
  | reaperTermErr : Nat → Err
  | reaperKillErr : Nat → Err
deriving Repr, DecidableEq

/-- The module-level mutable state of `src/cleanup.py` plus the ambient
runtime state the functions read: the live task set and the OS process
tree the reaper will enumerate. -/
structure CleanupState where
  thread_executor : Option PoolHandle
  running_subprocesses : List TrackedSubprocess
  all_tasks : List AsyncTask
  os_children : List ReaperChild
deriving Repr, DecidableEq

/-- Stage 1 of `cleanup()` (lines 16–20): `if thread_executor:
thread_executor.shutdown(wait=True); thread_executor = None`.  The handle
is cleared only after `shutdown` returns; an exception from `shutdown` is
not caught. -/
def shutdownPoolStage (st : CleanupState) : Except Err (CleanupState × List Action) :=
  match st.thread_executor with
  | none => Except.ok (st, [])
  | some h =>
      if h.shutdownRaises then Except.error Err.poolShutdownErr
      else Except.ok ({ st with thread_executor := none }, [Action.shutdownPool])

/-- The signalling half of one drain iteration (lines 36–44): if
`proc.returncode is None`, send `terminate()`, await
`asyncio.wait_for(proc.wait(), timeout=3)`, and on `asyncio.TimeoutError`
send `kill()`.  Only the timeout is caught; `terminate`/`kill` raising is
not. A successful graceful wait resolves the status (exit code 0 stands
for whatever status `wait()` observed); a successful kill resolves it
forcefully (code -9), per the spec's immediate-kill assumption. -/
def signalPhase (p : TrackedSubprocess) : Except Err (TrackedSubprocess × List Action) :=
  match p.returncode with
  | some _ => Except.ok (p, [])
  | none =>
      if p.terminateRaises then Except.error (Err.termErr p.pid)
      else if p.exitsWithinTimeout then
        Except.ok ({ p with returncode := some 0 },
          [Action.terminateSig p.pid, Action.waitProc p.pid (some 3)])
      else if p.killRaises then Except.error (Err.killErr p.pid)
      else
        Except.ok ({ p with returncode := some (-9) },
          [Action.terminateSig p.pid, Action.waitProc p.pid (some 3), Action.killSig p.pid])

/-- One `stream.close()` guarded by `try/except Exception: pass`
(lines 49–52): the attempt always happens on a present handle; if the
close raises, the exception is swallowed and the handle stays open. -/
def closeOne (s : Option StreamHandle) : Option StreamHandle :=
  match s with
  | none => none
  | some h => if h.closeFails then some h else some { h with isOpen := false }

/-- Trace of one `stream.close()` attempt: emitted exactly when the
handle is present (`if stream:`). -/
def closeTrace (pid : Nat) (n : StreamName) (s : Option StreamHandle) : List Action :=
  match s with
  | none => []
  | some _ => [Action.closeAttempt pid n]

/-- The stream-closing half of one drain iteration (lines 47–52):
`for stream in (proc.stdout, proc.stderr, proc.stdin)`, each close
attempted independently, exceptions swallowed.  Total: never raises. -/
def closeStreams (p : TrackedSubprocess) : TrackedSubprocess × List Action :=
  ({ p with stdout := closeOne p.stdout, stderr := closeOne p.stderr,
            stdin := closeOne p.stdin },
   closeTrace p.pid StreamName.stdoutS p.stdout ++
   closeTrace p.pid StreamName.stderrS p.stderr ++
   closeTrace p.pid StreamName.stdinS p.stdin)

/-- One full iteration of the drain loop body (lines 35–52) on the popped
process: signal phase, then stream closing. -/
def procTrace (p : TrackedSubprocess) : Except Err (TrackedSubprocess × List Action) :=
  match signalPhase p with
  | Except.error e => Except.error e
  | Except.ok (p1, tr1) =>
      let (p2, tr2) := closeStreams p1
      Except.ok (p2, tr1 ++ tr2)

/-- The `while running_subprocesses:` pop-loop (lines 35–52).  Returns the
registry as left when the loop exits, the processed (removed) subprocess
handles in pop order, and the trace. -/
def drainLoop : List TrackedSubprocess →
    Except Err (List TrackedSubprocess × List TrackedSubprocess × List Action)
  | [] => Except.ok ([], [], [])
  | p :: rest =>
      match procTrace p with
      | Except.error e => Except.error e
      | Except.ok (p', tr) =>
          match drainLoop rest with
          | Except.error e => Except.error e
          | Except.ok (reg, ps, tr') => Except.ok (reg, p' :: ps, tr ++ tr')

/-- The live tasks to cancel (line 58): `[t for t in asyncio.all_tasks()
if t is not asyncio.current_task()]`. -/
def tasksToCancel (st : CleanupState) : List AsyncTask :=
  st.all_tasks.filter (fun t => !t.isCurrent)

/-- The result-triage loop (lines 70–72): report each gathered outcome
that is an `Exception` and not an `asyncio.CancelledError`; never
re-raises, never stops early. -/
def triageTrace (results : List TaskOutcome) : List Action :=
  results.filterMap (fun o =>
    match o with
    | TaskOutcome.err c => some (Action.logTaskError c)
    | _ => none)

/-- `kill_all_threads` (lines 80–109): enumerate the transitive OS
descendants, `terminate()` each (uncaught `NoSuchProcess` possible), wait
once with `psutil.wait_procs(children, timeout=3)`, then `kill()` each
still-alive child (again uncaught).  The thread bookkeeping at the end of
the Python function only reports and deletes loop-local references, so it
contributes no action. -/
def reaperSignalAll : List ReaperChild → Except Err (List Action)
  | [] => Except.ok []
  | c :: rest =>
      if c.terminateRaises then Except.error (Err.reaperTermErr c.pid)
      else
        match reaperSignalAll rest with
        | Except.error e => Except.error e
        | Except.ok tr => Except.ok (Action.reaperTerminate c.pid :: tr)

/-- The `for child in still_alive: child.kill()` loop of
`kill_all_threads`: `still_alive` is exactly the children that did not
exit within the shared window. -/
def reaperKillStubborn : List ReaperChild → Except Err (List Action)
  | [] => Except.ok []
  | c :: rest =>
      if c.exitsInWindow then reaperKillStubborn rest
      else if c.killRaises then Except.error (Err.reaperKillErr c.pid)
      else
        match reaperKillStubborn rest with
        | Except.error e => Except.error e
        | Except.ok tr => Except.ok (Action.reaperKill c.pid :: tr)

/-- `kill_all_threads()` on the enumerated children of the current
process. -/
def kill_all_threads (children : List ReaperChild) : Except Err (List Action) :=
  match reaperSignalAll children with
  | Except.error e => Except.error e
  | Except.ok tr1 =>
      match reaperKillStubborn children with
      | Except.error e => Except.error e
      | Except.ok tr2 => Except.ok (tr1 ++ [Action.reaperWait (some 3)] ++ tr2)

/-- `cleanup()` (lines 11–77): the six-stage pipeline.  Stage order:
pool shutdown, subprocess drain, transport settle (`asyncio.sleep(0.1)`),
task cancellation (cancel all, grace `asyncio.sleep(0.1)`, then the
untimed `asyncio.gather(*tasks, return_exceptions=True)` join), result
triage, residual sweep (`kill_all_threads`).  Returns the final module
state and the action trace, or the first uncaught exception. -/
def cleanup (st : CleanupState) : Except Err (CleanupState × List Action) :=
  match shutdownPoolStage st with
  | Except.error e => Except.error e
  | Except.ok (st1, tr1) =>
      match drainLoop st1.running_subprocesses with
      | Except.error e => Except.error e
      | Except.ok (reg, _ps, tr2) =>
          let st2 := { st1 with running_subprocesses := reg }
          let settle := [Action.sleepFor 1]
          let tasks := tasksToCancel st2
          let cancels := tasks.map (fun t => Action.cancelTask t.tid)
          let grace := [Action.sleepFor 1]
          let join := [Action.gatherJoin none]
          let triage := triageTrace (tasks.map AsyncTask.outcome)
          match kill_all_threads st2.os_children with
          | Except.error e => Except.error e
          | Except.ok tr6 =>
              Except.ok (st2,
                tr1 ++ tr2 ++ settle ++ cancels ++ grace ++ join ++ triage ++ tr6)

/-- Whether a run finished without an uncaught exception. -/
def exceptOk {α : Type} (e : Except Err α) : Bool :=
  match e with
  | Except.ok _ => true
  | Except.error _ => false

/-- Actions that the subprocess-drain stage can emit. -/
def isSubprocAction : Action → Bool
  | Action.terminateSig _ => true
  | Action.waitProc _ _ => true
  | Action.killSig _ => true
  | Action.closeAttempt _ _ => true
  | _ => false

/-- Actions that the residual-sweep stage can emit. -/
def isReaperAction : Action → Bool
  | Action.reaperTerminate _ => true
  | Action.reaperWait _ => true
  | Action.reaperKill _ => true
  | _ => false

/-- Actions the signalling half of a drain iteration can emit (never a
stream-close attempt). -/
def isSignalAction : Action → Bool
  | Action.terminateSig _ => true
  | Action.waitProc _ _ => true
  | Action.killSig _ => true
  | _ => false

/-- Cancellation requests. -/
def isCancel : Action → Bool
  | Action.cancelTask _ => true
  | _ => false

/-- Entries of the reported-error log. -/
def isLogAction : Action → Bool
  | Action.logTaskError _ => true
  | _ => false

/-- A suspension point that carries no explicit bound: an untimed process
wait or an untimed join.  `sleepFor` is always a fixed finite delay and so
never unbounded. -/
def isUnboundedSuspension : Action → Bool
  | Action.waitProc _ none => true
  | Action.gatherJoin none => true
  | Action.reaperWait none => true
  | _ => false

/-- A stream handle is closed unless its `close()` attempt raised (in
which case the swallowed exception leaves it as it was). -/
def closedUnlessFailed : Option StreamHandle → Bool
  | none => true
  | some h => h.closeFails || !h.isOpen

/-- A subprocess that exits gracefully within the timeout, used to run the
C2 theorem on a concrete non-empty registry. -/
def procW2 : TrackedSubprocess :=
  { pid := 5, returncode := none, stdin := none,
    stdout := some { isOpen := true, closeFails := false }, stderr := none,
    exitsWithinTimeout := true, terminateRaises := false, killRaises := false }

/-- Concrete initial state with a non-empty Subprocess Registry. -/
def stateW2 : CleanupState :=
  { thread_executor := some { shutdownRaises := false },
    running_subprocesses := [procW2],
    all_tasks := [], os_children := [] }

/-- Final state of running `cleanup` on `stateW2`. -/
def stateW2Final : CleanupState :=
  { thread_executor := none, running_subprocesses := [],
    all_tasks := [], os_children := [] }

/-- Trace of running `cleanup` on `stateW2`. -/
def traceW2 : List Action :=
  [Action.shutdownPool, Action.terminateSig 5, Action.waitProc 5 (some 3),
   Action.closeAttempt 5 StreamName.stdoutS, Action.sleepFor 1, Action.sleepFor 1,
   Action.gatherJoin none, Action.reaperWait (some 3)]

/-- Concrete state with a live pool handle for the C9 theorem. -/
def stateW9 : CleanupState :=
  { thread_executor := some { shutdownRaises := false },
    running_subprocesses := [], all_tasks := [], os_children := [] }

/-- Final state of running `cleanup` on `stateW9`. -/
def stateW9Final : CleanupState :=
  { thread_executor := none, running_subprocesses := [],
    all_tasks := [], os_children := [] }

/-- Trace of running `cleanup` on `stateW9`. -/
def traceW9 : List Action :=
  [Action.shutdownPool, Action.sleepFor 1, Action.sleepFor 1,
   Action.gatherJoin none, Action.reaperWait (some 3)]

/-- A subprocess that never reacts to the graceful terminate signal, used
to run the C4 theorem through its forceful-kill branch. -/
def procW4 : TrackedSubprocess :=
  { pid := 11, returncode := none, stdin := none, stdout := none, stderr := none,
    exitsWithinTimeout := false, terminateRaises := false, killRaises := false }

/-- Concrete process tree for the C10 theorem: one child exits inside the
shared window, the other must be force-killed. -/
def childrenW10 : List ReaperChild :=
  [{ pid := 21, exitsInWindow := true, terminateRaises := false, killRaises := false },
   { pid := 22, exitsInWindow := false, terminateRaises := false, killRaises := false }]

/-- A subprocess with all three streams present, the error stream's close
raising, used to run the C6 theorem. -/
def procW6 : TrackedSubprocess :=
  { pid := 9, returncode := none,
    stdin := some { isOpen := true, closeFails := false },
    stdout := some { isOpen := true, closeFails := false },
    stderr := some { isOpen := true, closeFails := true },
    exitsWithinTimeout := true, terminateRaises := false, killRaises := false }

/-- `procW6` after its drain iteration. -/
def procW6After : TrackedSubprocess :=
  { pid := 9, returncode := some 0,
    stdin := some { isOpen := false, closeFails := false },
    stdout := some { isOpen := false, closeFails := false },
    stderr := some { isOpen := true, closeFails := true },
    exitsWithinTimeout := true, terminateRaises := false, killRaises := false }

/-- Trace of `procW6`'s drain iteration. -/
def traceW6 : List Action :=
  [Action.terminateSig 9, Action.waitProc 9 (some 3),
   Action.closeAttempt 9 StreamName.stdoutS, Action.closeAttempt 9 StreamName.stderrS,
   Action.closeAttempt 9 StreamName.stdinS]

/-- An already-exited subprocess whose output stream's `close()` raises:
the swallowed exception leaves the handle open after the drain removed
the process, refuting the claimed no-open-streams invariant. -/
def procC5 : TrackedSubprocess :=
  { pid := 7, returncode := some 0, stdin := none,
    stdout := some { isOpen := true, closeFails := true }, stderr := none,
    exitsWithinTimeout := true, terminateRaises := false, killRaises := false }

/-- No call left unguarded by the source's `try/except` blocks raises:
the pool `shutdown`, every subprocess `terminate`/`kill`, and every
`psutil` child `terminate`/`kill` succeed.  (Stream closes, exit-wait
timeouts and task outcomes may still fail arbitrarily: those are
guarded.) -/
def noUnguardedRaise (st : CleanupState) : Bool :=
  (st.thread_executor.all (fun hdl => !hdl.shutdownRaises)) &&
  st.running_subprocesses.all (fun p => !p.terminateRaises && !p.killRaises) &&
  st.os_children.all (fun c => !c.terminateRaises && !c.killRaises)

/-- A subprocess that ignores the graceful terminate (forcing the kill
path) and whose input stream's `close()` raises. -/
def demoProc : TrackedSubprocess :=
  { pid := 3, returncode := none,
    stdin := some { isOpen := true, closeFails := true },
    stdout := some { isOpen := true, closeFails := false }, stderr := none,
    exitsWithinTimeout := false, terminateRaises := false, killRaises := false }

/-- Live tasks: the orchestrator's own, one that acknowledges
cancellation, two that finish normally or raise. -/
def demoTasks : List AsyncTask :=
  [{ tid := 1, isCurrent := true, outcome := TaskOutcome.ok },
   { tid := 2, isCurrent := false, outcome := TaskOutcome.cancelled },
   { tid := 3, isCurrent := false, outcome := TaskOutcome.err 42 },
   { tid := 4, isCurrent := false, outcome := TaskOutcome.ok },
   { tid := 5, isCurrent := false, outcome := TaskOutcome.err 7 }]

/-- A stubborn OS descendant that must be force-killed by the reaper. -/
def demoChild : ReaperChild :=
  { pid := 44, exitsInWindow := false, terminateRaises := false, killRaises := false }

/-- A full concrete initial state exercising the kill path, a failed
stream close, cancelled and erroring tasks, and a stubborn descendant. -/
def demoState : CleanupState :=
  { thread_executor := some { shutdownRaises := false },
    running_subprocesses := [demoProc],
    all_tasks := demoTasks, os_children := [demoChild] }

/-- Final state of running `cleanup` on `demoState`. -/
def demoFinal : CleanupState :=
  { thread_executor := none, running_subprocesses := [],
    all_tasks := demoTasks, os_children := [demoChild] }

/-- Trace of running `cleanup` on `demoState`. -/
def demoTrace : List Action :=
  [Action.shutdownPool, Action.terminateSig 3, Action.waitProc 3 (some 3),
   Action.killSig 3, Action.closeAttempt 3 StreamName.stdoutS,
   Action.closeAttempt 3 StreamName.stdinS, Action.sleepFor 1,
   Action.cancelTask 2, Action.cancelTask 3, Action.cancelTask 4, Action.cancelTask 5,
   Action.sleepFor 1, Action.gatherJoin none,
   Action.logTaskError 42, Action.logTaskError 7,
   Action.reaperTerminate 44, Action.reaperWait (some 3), Action.reaperKill 44]

/-- Initial state with one cancellable task, used to exhibit the untimed
final join. -/
def stateC7 : CleanupState :=
  { thread_executor := none, running_subprocesses := [],
    all_tasks := [{ tid := 1, isCurrent := false, outcome := TaskOutcome.cancelled }],
    os_children := [] }

/-- Trace of running `cleanup` on `stateC7`. -/
def traceC7 : List Action :=
  [Action.sleepFor 1, Action.cancelTask 1, Action.sleepFor 1,
   Action.gatherJoin none, Action.reaperWait (some 3)]

/-- A state whose only OS descendant exits right after enumeration, so
the reaper's unguarded `terminate()` raises `NoSuchProcess`. -/
def stateC1 : CleanupState :=
  { thread_executor := none, running_subprocesses := [], all_tasks := [],
    os_children :=
      [{ pid := 33, exitsInWindow := true, terminateRaises := true, killRaises := false }] }

theorem shutdownPoolStage_ok {st : CleanupState} {st1 : CleanupState} {tr1 : List Action}
    (h : shutdownPoolStage st = Except.ok (st1, tr1)) :
    st1.thread_executor = none ∧
    st1.running_subprocesses = st.running_subprocesses ∧
    st1.all_tasks = st.all_tasks ∧
    st1.os_children = st.os_children ∧
    tr1 = (if st.thread_executor.isSome then [Action.shutdownPool] else []) := by
  cases hte : st.thread_executor with
  | none =>
      simp [shutdownPoolStage, hte] at h
      simp [← h.1, hte, h.2]
  | some hdl =>
      by_cases hr : hdl.shutdownRaises
      · simp [shutdownPoolStage, hte, hr] at h
      · simp [shutdownPoolStage, hte, hr] at h
        simp [← h.1, ← h.2]

theorem signalPhase_ok {p p' : TrackedSubprocess} {tr : List Action}
    (h : signalPhase p = Except.ok (p', tr)) :
    p'.pid = p.pid ∧ p'.returncode.isSome = true ∧
    p'.stdin = p.stdin ∧ p'.stdout = p.stdout ∧ p'.stderr = p.stderr ∧
    (∀ a ∈ tr, isSignalAction a = true ∧ isUnboundedSuspension a = false ∧
      isCancel a = false) := by
  cases hrc : p.returncode with
  | some r =>
      simp [signalPhase, hrc] at h
      obtain ⟨h1, h2⟩ := h
      subst h1 h2
      simp [hrc]
  | none =>
      by_cases ht : p.terminateRaises
      · simp [signalPhase, hrc, ht] at h
      · by_cases he : p.exitsWithinTimeout
        · simp [signalPhase, hrc, ht, he] at h
          obtain ⟨h1, h2⟩ := h
          subst h1 h2
          refine ⟨rfl, rfl, rfl, rfl, rfl, ?_⟩
          simp [isSignalAction, isUnboundedSuspension, isCancel]
        · by_cases hk : p.killRaises
          · simp [signalPhase, hrc, ht, he, hk] at h
          · simp [signalPhase, hrc, ht, he, hk] at h
            obtain ⟨h1, h2⟩ := h
            subst h1 h2
            refine ⟨rfl, rfl, rfl, rfl, rfl, ?_⟩
            simp [isSignalAction, isUnboundedSuspension, isCancel]

theorem closedUnlessFailed_closeOne (s : Option StreamHandle) :
    closedUnlessFailed (closeOne s) = true := by
  cases s with
  | none => rfl
  | some h =>
      by_cases hc : h.closeFails <;> simp [closeOne, closedUnlessFailed, hc]

theorem closeTrace_mem {pid : Nat} {n : StreamName} {s : Option StreamHandle} {a : Action}
    (h : a ∈ closeTrace pid n s) : a = Action.closeAttempt pid n := by
  cases s with
  | none => simp [closeTrace] at h
  | some hd => simp [closeTrace] at h; exact h

theorem procTrace_ok {p p' : TrackedSubprocess} {tr : List Action}
    (h : procTrace p = Except.ok (p', tr)) :
    ∃ p1 tr1, signalPhase p = Except.ok (p1, tr1) ∧
      p' = (closeStreams p1).1 ∧ tr = tr1 ++ (closeStreams p1).2 := by
  cases hs : signalPhase p with
  | error e => simp [procTrace, hs] at h
  | ok x =>
      obtain ⟨p1, tr1⟩ := x
      simp [procTrace, hs] at h
      exact ⟨p1, tr1, rfl, h.1.symm, h.2.symm⟩

theorem isSignalAction_subproc {a : Action} (h : isSignalAction a = true) :
    isSubprocAction a = true := by
  cases a <;> simp_all [isSignalAction, isSubprocAction]

theorem procTrace_props {p p' : TrackedSubprocess} {tr : List Action}
    (h : procTrace p = Except.ok (p', tr)) :
    p'.pid = p.pid ∧ p'.returncode.isSome = true ∧
    closedUnlessFailed p'.stdin = true ∧ closedUnlessFailed p'.stdout = true ∧
    closedUnlessFailed p'.stderr = true ∧
    (∀ a ∈ tr, isSubprocAction a = true ∧ isUnboundedSuspension a = false ∧
      isCancel a = false) := by
  obtain ⟨p1, tr1, hs, hp, ht⟩ := procTrace_ok h
  obtain ⟨hpid, hrc, _, _, _, htr1⟩ := signalPhase_ok hs
  subst hp ht
  refine ⟨hpid, hrc, closedUnlessFailed_closeOne _, closedUnlessFailed_closeOne _,
    closedUnlessFailed_closeOne _, ?_⟩
  intro a ha
  rcases List.mem_append.mp ha with ha1 | ha2
  · obtain ⟨hs, hu, hc⟩ := htr1 a ha1
    exact ⟨isSignalAction_subproc hs, hu, hc⟩
  · have : a = Action.closeAttempt p1.pid StreamName.stdoutS ∨
        a = Action.closeAttempt p1.pid StreamName.stderrS ∨
        a = Action.closeAttempt p1.pid StreamName.stdinS := by
      simp only [closeStreams] at ha2
      rcases List.mem_append.mp ha2 with hb | hb
      · rcases List.mem_append.mp hb with hc | hc
        · exact Or.inl (closeTrace_mem hc)
        · exact Or.inr (Or.inl (closeTrace_mem hc))
      · exact Or.inr (Or.inr (closeTrace_mem hb))
    rcases this with hb | hb | hb <;>
      simp [hb, isSubprocAction, isUnboundedSuspension, isCancel]

theorem drainLoop_props :
    ∀ {ps reg procs : List TrackedSubprocess} {tr : List Action},
    drainLoop ps = Except.ok (reg, procs, tr) →
    reg = [] ∧
    (∀ p' ∈ procs, p'.returncode.isSome = true ∧
      closedUnlessFailed p'.stdin = true ∧ closedUnlessFailed p'.stdout = true ∧
      closedUnlessFailed p'.stderr = true) ∧
    (∀ a ∈ tr, isSubprocAction a = true ∧ isUnboundedSuspension a = false ∧
      isCancel a = false) := by
  intro ps
  induction ps with
  | nil =>
      intro reg procs tr h
      simp [drainLoop] at h
      obtain ⟨h1, h2, h3⟩ := h
      subst h1 h2 h3
      simp
  | cons p rest ih =>
      intro reg procs tr h
      cases hp : procTrace p with
      | error e => simp [drainLoop, hp] at h
      | ok x =>
          obtain ⟨p1, tr1⟩ := x
          cases hr : drainLoop rest with
          | error e => simp [drainLoop, hp, hr] at h
          | ok y =>
              obtain ⟨reg2, procs2, tr2⟩ := y
              simp [drainLoop, hp, hr] at h
              obtain ⟨h1, h2, h3⟩ := h
              subst h1 h2 h3
              obtain ⟨hreg, hprocs, htr⟩ := ih hr
              obtain ⟨_, hrc, hin, hout, herr, htr1⟩ := procTrace_props hp
              refine ⟨hreg, ?_, ?_⟩
              · intro q hq
                rcases List.mem_cons.mp hq with hq | hq
                · subst hq; exact ⟨hrc, hin, hout, herr⟩
                · exact hprocs q hq
              · intro a ha
                rcases List.mem_append.mp ha with ha | ha
                · exact htr1 a ha
                · exact htr a ha

theorem reaperSignalAll_eq :
    ∀ {cs : List ReaperChild}, (∀ c ∈ cs, c.terminateRaises = false) →
    reaperSignalAll cs = Except.ok (cs.map (fun c => Action.reaperTerminate c.pid)) := by
  intro cs
  induction cs with
  | nil => intro _; rfl
  | cons c rest ih =>
      intro h
      have hc : c.terminateRaises = false := h c (List.mem_cons_self c rest)
      have hrest := ih (fun d hd => h d (List.mem_cons_of_mem c hd))
      simp [reaperSignalAll, hc, hrest]

theorem reaperKillStubborn_eq :
    ∀ {cs : List ReaperChild}, (∀ c ∈ cs, c.exitsInWindow = false → c.killRaises = false) →
    reaperKillStubborn cs =
      Except.ok ((cs.filter (fun c => !c.exitsInWindow)).map
        (fun c => Action.reaperKill c.pid)) := by
  intro cs
  induction cs with
  | nil => intro _; rfl
  | cons c rest ih =>
      intro h
      have hrest := ih (fun d hd => h d (List.mem_cons_of_mem c hd))
      by_cases he : c.exitsInWindow
      · simp [reaperKillStubborn, he, hrest]
      · have hk : c.killRaises = false :=
          h c (List.mem_cons_self c rest) (by simpa using he)
        simp [reaperKillStubborn, he, hk, hrest]

theorem reaperSignalAll_mem :
    ∀ {cs : List ReaperChild} {tr : List Action}, reaperSignalAll cs = Except.ok tr →
    ∀ a ∈ tr, ∃ pid, a = Action.reaperTerminate pid := by
  intro cs
  induction cs with
  | nil =>
      intro tr h a ha
      simp [reaperSignalAll] at h
      subst h
      simp at ha
  | cons c rest ih =>
      intro tr h a ha
      by_cases hc : c.terminateRaises
      · simp [reaperSignalAll, hc] at h
      · cases hr : reaperSignalAll rest with
        | error e => simp [reaperSignalAll, hc, hr] at h
        | ok tr2 =>
            simp [reaperSignalAll, hc, hr] at h
            subst h
            rcases List.mem_cons.mp ha with ha | ha
            · exact ⟨c.pid, ha⟩
            · exact ih hr a ha

theorem reaperKillStubborn_mem :
    ∀ {cs : List ReaperChild} {tr : List Action}, reaperKillStubborn cs = Except.ok tr →
    ∀ a ∈ tr, ∃ pid, a = Action.reaperKill pid := by
  intro cs
  induction cs with
  | nil =>
      intro tr h a ha
      simp [reaperKillStubborn] at h
      subst h
      simp at ha
  | cons c rest ih =>
      intro tr h a ha
      by_cases he : c.exitsInWindow
      · exact ih (by simpa [reaperKillStubborn, he] using h) a ha
      · by_cases hk : c.killRaises
        · simp [reaperKillStubborn, he, hk] at h
        · cases hr : reaperKillStubborn rest with
          | error e => simp [reaperKillStubborn, he, hk, hr] at h
          | ok tr2 =>
              simp [reaperKillStubborn, he, hk, hr] at h
              subst h
              rcases List.mem_cons.mp ha with ha | ha
              · exact ⟨c.pid, ha⟩
              · exact ih hr a ha

theorem kill_all_threads_props {cs : List ReaperChild} {tr : List Action}
    (h : kill_all_threads cs = Except.ok tr) :
    ∀ a ∈ tr, isReaperAction a = true ∧ isUnboundedSuspension a = false ∧
      isCancel a = false := by
  cases h1 : reaperSignalAll cs with
  | error e => simp [kill_all_threads, h1] at h
  | ok tr1 =>
      cases h2 : reaperKillStubborn cs with
      | error e => simp [kill_all_threads, h1, h2] at h
      | ok tr2 =>
          simp [kill_all_threads, h1, h2] at h
          subst h
          intro a ha
          rcases List.mem_append.mp ha with hb | hb
          · obtain ⟨pid, hp⟩ := reaperSignalAll_mem h1 a hb
            simp [hp, isReaperAction, isUnboundedSuspension, isCancel]
          · rcases List.mem_cons.mp hb with hc | hc
            · simp [hc, isReaperAction, isUnboundedSuspension, isCancel]
            · obtain ⟨pid, hp⟩ := reaperKillStubborn_mem h2 a hc
              simp [hp, isReaperAction, isUnboundedSuspension, isCancel]

theorem cleanup_ok_inv {st st' : CleanupState} {tr : List Action}
    (h : cleanup st = Except.ok (st', tr)) :
    ∃ (st1 : CleanupState) (tr1 : List Action) (reg procs : List TrackedSubprocess)
      (tr2 tr6 : List Action),
      shutdownPoolStage st = Except.ok (st1, tr1) ∧
      drainLoop st1.running_subprocesses = Except.ok (reg, procs, tr2) ∧
      kill_all_threads st1.os_children = Except.ok tr6 ∧
      st' = { st1 with running_subprocesses := reg } ∧
      tr = tr1 ++ tr2 ++ [Action.sleepFor 1] ++
        ((st1.all_tasks.filter (fun t => !t.isCurrent)).map
          (fun t => Action.cancelTask t.tid)) ++
        [Action.sleepFor 1] ++ [Action.gatherJoin none] ++
        triageTrace ((st1.all_tasks.filter (fun t => !t.isCurrent)).map
          AsyncTask.outcome) ++ tr6 := by
  cases h1 : shutdownPoolStage st with
  | error e => simp [cleanup, h1] at h
  | ok x =>
      obtain ⟨st1, tr1⟩ := x
      cases h2 : drainLoop st1.running_subprocesses with
      | error e => simp [cleanup, h1, h2] at h
      | ok y =>
          obtain ⟨reg, procs, tr2⟩ := y
          cases h6 : kill_all_threads (CleanupState.os_children
              { st1 with running_subprocesses := reg }) with
          | error e => simp [cleanup, h1, h2, h6] at h
          | ok tr6 =>
              simp [cleanup, h1, h2, h6, tasksToCancel] at h
              obtain ⟨hst, htr⟩ := h
              refine ⟨st1, tr1, reg, procs, tr2, tr6, rfl, h2, h6, hst.symm, ?_⟩
              simpa [List.append_assoc] using htr.symm

theorem triageTrace_mem {rs : List TaskOutcome} {a : Action} (h : a ∈ triageTrace rs) :
    ∃ c, a = Action.logTaskError c ∧ TaskOutcome.err c ∈ rs := by
  rw [triageTrace, List.mem_filterMap] at h
  obtain ⟨o, ho, hoa⟩ := h
  cases o with
  | ok => simp at hoa
  | cancelled => simp at hoa
  | err c =>
      simp at hoa
      exact ⟨c, hoa.symm, ho⟩

theorem triageTrace_mem_of_err {rs : List TaskOutcome} {c : Nat}
    (h : TaskOutcome.err c ∈ rs) : Action.logTaskError c ∈ triageTrace rs := by
  rw [triageTrace, List.mem_filterMap]
  exact ⟨TaskOutcome.err c, h, rfl⟩

end CleanupModel

namespace CleanupModel

/-- C2: the drain loop pops until the registry is empty, so whenever
`cleanup()` returns (for any initial state, in particular any non-empty
registry, with no concurrent additions in this sequential model), the
`running_subprocesses` registry holds no elements. -/
theorem cleanup_empties_registry (st st' : CleanupState) (tr : List Action)
    (h : cleanup st = Except.ok (st', tr)) :
    st'.running_subprocesses = [] := by
  obtain ⟨st1, tr1, reg, procs, tr2, tr6, _, h2, _, hst, _⟩ := cleanup_ok_inv h
  obtain ⟨hreg, _, _⟩ := drainLoop_props h2
  subst hst
  simpa using hreg

theorem cleanup_empties_registry_witness :
    cleanup stateW2 = Except.ok (stateW2Final, traceW2) ∧
    stateW2Final.running_subprocesses = [] :=
  ⟨by rfl, cleanup_empties_registry stateW2 stateW2Final traceW2 (by rfl)⟩

/-- C9: whenever `cleanup()` returns, the Worker Pool Handle is absent;
the blocking `shutdown(wait=True)` call happens exactly once when a
handle existed and never when none did, and with no handle present the
pool-shutdown stage is a silent error-free no-op. -/
theorem cleanup_pool_shutdown (st st' : CleanupState) (tr : List Action)
    (h : cleanup st = Except.ok (st', tr)) :
    st'.thread_executor = none ∧
    tr.count Action.shutdownPool = (if st.thread_executor.isSome then 1 else 0) ∧
    (st.thread_executor = none → shutdownPoolStage st = Except.ok (st, [])) := by
  obtain ⟨st1, tr1, reg, procs, tr2, tr6, h1, h2, h6, hst, htr⟩ := cleanup_ok_inv h
  obtain ⟨hte, hrun, htasks, hos, htr1⟩ := shutdownPoolStage_ok h1
  obtain ⟨_, _, hdr⟩ := drainLoop_props h2
  have hreap := kill_all_threads_props h6
  subst hst htr
  refine ⟨by simpa using hte, ?_, ?_⟩
  · have c2 : tr2.count Action.shutdownPool = 0 := by
      apply List.count_eq_zero.mpr
      intro hm
      have := (hdr _ hm).1
      simp [isSubprocAction] at this
    have c4 : ((st1.all_tasks.filter (fun t => !t.isCurrent)).map
        (fun t => Action.cancelTask t.tid)).count Action.shutdownPool = 0 := by
      apply List.count_eq_zero.mpr
      intro hm
      simp [List.mem_map] at hm
    have c5 : (triageTrace ((st1.all_tasks.filter (fun t => !t.isCurrent)).map
        AsyncTask.outcome)).count Action.shutdownPool = 0 := by
      apply List.count_eq_zero.mpr
      intro hm
      obtain ⟨c, hc, _⟩ := triageTrace_mem hm
      simp at hc
    have c6 : tr6.count Action.shutdownPool = 0 := by
      apply List.count_eq_zero.mpr
      intro hm
      have := (hreap _ hm).1
      simp [isReaperAction] at this
    have c1 : tr1.count Action.shutdownPool =
        (if st.thread_executor.isSome then 1 else 0) := by
      cases hc : st.thread_executor with
      | none => simp [hc] at htr1; simp [htr1]
      | some hdl => simp [hc] at htr1; simp [htr1]
    simp [List.count_append, c1, c2, c4, c5, c6]
  · intro hnone
    simp [shutdownPoolStage, hnone]

theorem cleanup_pool_shutdown_witness :
    cleanup stateW9 = Except.ok (stateW9Final, traceW9) ∧
    (stateW9Final.thread_executor = none ∧
     traceW9.count Action.shutdownPool =
       (if stateW9.thread_executor.isSome then 1 else 0) ∧
     (stateW9.thread_executor = none →
       shutdownPoolStage stateW9 = Except.ok (stateW9, []))) :=
  ⟨by rfl, cleanup_pool_shutdown stateW9 stateW9Final traceW9 (by rfl)⟩

/-- C4: per drained subprocess (the body of the drain loop applies
`signalPhase` to every popped handle), when the signal calls themselves do
not raise: an already-exited process receives no signal and an empty
protocol trace; a running process gets the graceful terminate and the
3-unit bounded wait, after which the forceful kill is sent if and only if
the wait timed out. -/
theorem signalPhase_protocol (p : TrackedSubprocess)
    (h1 : p.terminateRaises = false) (h2 : p.killRaises = false) :
    (∀ r, p.returncode = some r → signalPhase p = Except.ok (p, [])) ∧
    (p.returncode = none → p.exitsWithinTimeout = true →
      signalPhase p = Except.ok ({ p with returncode := some 0 },
        [Action.terminateSig p.pid, Action.waitProc p.pid (some 3)])) ∧
    (p.returncode = none → p.exitsWithinTimeout = false →
      signalPhase p = Except.ok ({ p with returncode := some (-9) },
        [Action.terminateSig p.pid, Action.waitProc p.pid (some 3),
         Action.killSig p.pid])) ∧
    (∀ p' tr, signalPhase p = Except.ok (p', tr) →
      (Action.killSig p.pid ∈ tr ↔
        p.returncode = none ∧ p.exitsWithinTimeout = false)) := by
  refine ⟨?_, ?_, ?_, ?_⟩
  · intro r hr; simp [signalPhase, hr]
  · intro hr he; simp [signalPhase, hr, h1, he]
  · intro hr he; simp [signalPhase, hr, h1, he, h2]
  · intro p' tr h
    cases hr : p.returncode with
    | some r =>
        simp [signalPhase, hr] at h
        simp [h.2, hr]
    | none =>
        by_cases he : p.exitsWithinTimeout
        · simp [signalPhase, hr, h1, he] at h
          simp [← h.2, hr, he]
        · simp [signalPhase, hr, h1, he, h2] at h
          simp [← h.2, hr, he]

theorem signalPhase_protocol_witness :
    procW4.terminateRaises = false ∧ procW4.killRaises = false ∧
    (∀ r, procW4.returncode = some r → signalPhase procW4 = Except.ok (procW4, [])) ∧
    (procW4.returncode = none → procW4.exitsWithinTimeout = true →
      signalPhase procW4 = Except.ok ({ procW4 with returncode := some 0 },
        [Action.terminateSig procW4.pid, Action.waitProc procW4.pid (some 3)])) ∧
    (procW4.returncode = none → procW4.exitsWithinTimeout = false →
      signalPhase procW4 = Except.ok ({ procW4 with returncode := some (-9) },
        [Action.terminateSig procW4.pid, Action.waitProc procW4.pid (some 3),
         Action.killSig procW4.pid])) ∧
    (∀ p' tr, signalPhase procW4 = Except.ok (p', tr) →
      (Action.killSig procW4.pid ∈ tr ↔
        procW4.returncode = none ∧ procW4.exitsWithinTimeout = false)) := by
  refine ⟨rfl, rfl, ?_⟩
  exact signalPhase_protocol procW4 rfl rfl

/-- C10: `kill_all_threads` signals the enumerated transitive descendants
one graceful terminate each, performs the single shared 3-unit
`wait_procs` window, and then force-kills exactly the children still
alive after the window — provided none of the `psutil` signal calls
raises. -/
theorem kill_all_threads_protocol (cs : List ReaperChild)
    (h1 : ∀ c ∈ cs, c.terminateRaises = false)
    (h2 : ∀ c ∈ cs, c.exitsInWindow = false → c.killRaises = false) :
    kill_all_threads cs = Except.ok
      ((cs.map (fun c => Action.reaperTerminate c.pid)) ++
       [Action.reaperWait (some 3)] ++
       ((cs.filter (fun c => !c.exitsInWindow)).map
         (fun c => Action.reaperKill c.pid))) := by
  simp [kill_all_threads, reaperSignalAll_eq h1, reaperKillStubborn_eq h2]

theorem kill_all_threads_protocol_witness :
    (∀ c ∈ childrenW10, c.terminateRaises = false) ∧
    (∀ c ∈ childrenW10, c.exitsInWindow = false → c.killRaises = false) ∧
    kill_all_threads childrenW10 = Except.ok
      ((childrenW10.map (fun c => Action.reaperTerminate c.pid)) ++
       [Action.reaperWait (some 3)] ++
       ((childrenW10.filter (fun c => !c.exitsInWindow)).map
         (fun c => Action.reaperKill c.pid))) :=
  ⟨by decide, by decide, kill_all_threads_protocol childrenW10 (by decide) (by decide)⟩

theorem closeTrace_count_self (pid : Nat) (n : StreamName) (s : Option StreamHandle) :
    (closeTrace pid n s).count (Action.closeAttempt pid n) =
      (if s.isSome then 1 else 0) := by
  cases s <;> simp [closeTrace]

theorem closeTrace_count_ne (pid pid2 : Nat) (n m : StreamName) (s : Option StreamHandle)
    (h : n ≠ m) :
    (closeTrace pid n s).count (Action.closeAttempt pid2 m) = 0 := by
  cases s <;> simp [closeTrace, List.count_singleton', beq_iff_eq, Ne.symm h]

/-- C6: in every drain-loop iteration, each of the popped subprocess's
three stream handles that is present gets exactly one close attempt,
whatever the exit path and whatever closes fail; and a stream-close
failure never turns a successful termination protocol into a raise (the
close half is total, so the iteration raises only if the signal half
does). -/
theorem procTrace_close_attempts (p : TrackedSubprocess) :
    (exceptOk (signalPhase p) = true → exceptOk (procTrace p) = true) ∧
    (∀ p' tr, procTrace p = Except.ok (p', tr) →
      tr.count (Action.closeAttempt p.pid StreamName.stdoutS) =
        (if p.stdout.isSome then 1 else 0) ∧
      tr.count (Action.closeAttempt p.pid StreamName.stderrS) =
        (if p.stderr.isSome then 1 else 0) ∧
      tr.count (Action.closeAttempt p.pid StreamName.stdinS) =
        (if p.stdin.isSome then 1 else 0)) := by
  constructor
  · intro hs
    cases h : signalPhase p with
    | error e => simp [exceptOk, h] at hs
    | ok x => simp [procTrace, h, exceptOk]
  · intro p' tr h
    obtain ⟨p1, tr1, hs, hp, ht⟩ := procTrace_ok h
    obtain ⟨hpid, _, hin, hout, herr, htr1⟩ := signalPhase_ok hs
    subst ht
    have hz : ∀ n, tr1.count (Action.closeAttempt p.pid n) = 0 := by
      intro n
      apply List.count_eq_zero.mpr
      intro hm
      have := (htr1 _ hm).1
      simp [isSignalAction] at this
    simp only [closeStreams]
    rw [hpid, hin, hout, herr]
    refine ⟨?_, ?_, ?_⟩ <;>
      simp [List.count_append, hz, closeTrace_count_self, closeTrace_count_ne]

theorem procTrace_close_attempts_witness :
    exceptOk (signalPhase procW6) = true ∧
    procTrace procW6 = Except.ok (procW6After, traceW6) ∧
    (exceptOk (procTrace procW6) = true) ∧
    (traceW6.count (Action.closeAttempt procW6.pid StreamName.stdoutS) =
      (if procW6.stdout.isSome then 1 else 0) ∧
     traceW6.count (Action.closeAttempt procW6.pid StreamName.stderrS) =
      (if procW6.stderr.isSome then 1 else 0) ∧
     traceW6.count (Action.closeAttempt procW6.pid StreamName.stdinS) =
      (if procW6.stdin.isSome then 1 else 0)) :=
  ⟨by rfl, by rfl, (procTrace_close_attempts procW6).1 (by rfl),
   (procTrace_close_attempts procW6).2 procW6After traceW6 (by rfl)⟩

/-- C5 (amended): every subprocess removed by the drain has a resolved
exit status (graceful or forced) and every stream handle whose `close()`
did not raise is closed; a handle whose `close()` raised (the exception is
swallowed) may remain open. -/
theorem drain_removed_invariant (ps reg procs : List TrackedSubprocess) (tr : List Action)
    (h : drainLoop ps = Except.ok (reg, procs, tr)) :
    ∀ p' ∈ procs, p'.returncode.isSome = true ∧
      closedUnlessFailed p'.stdin = true ∧ closedUnlessFailed p'.stdout = true ∧
      closedUnlessFailed p'.stderr = true :=
  fun p' hp => (drainLoop_props h).2.1 p' hp

theorem drain_removed_invariant_witness :
    drainLoop [procC5] =
      Except.ok ([], [procC5], [Action.closeAttempt 7 StreamName.stdoutS]) ∧
    (procC5.returncode.isSome = true ∧
     closedUnlessFailed procC5.stdin = true ∧ closedUnlessFailed procC5.stdout = true ∧
     closedUnlessFailed procC5.stderr = true) :=
  ⟨by rfl, drain_removed_invariant [procC5] [] [procC5]
    [Action.closeAttempt 7 StreamName.stdoutS] (by rfl) procC5 (by decide)⟩

theorem isSubprocAction_not_log {a : Action} (h : isSubprocAction a = true) :
    isLogAction a = false := by
  cases a <;> simp_all [isSubprocAction, isLogAction]

theorem isReaperAction_not_log {a : Action} (h : isReaperAction a = true) :
    isLogAction a = false := by
  cases a <;> simp_all [isReaperAction, isLogAction]

/-- C3: the reported-error log of a completed `cleanup()` run is exactly
the triage of the gathered outcomes of the cancelled tasks: a raised
condition `c` from some task is reported if and only if it is not a
cancellation acknowledgement, every outcome is triaged (the whole outcome
list feeds the log, so no outcome aborts triage of the rest), and nothing
is re-raised (the run returned). -/
theorem cleanup_triage_log (st st' : CleanupState) (tr : List Action)
    (h : cleanup st = Except.ok (st', tr)) :
    tr.filter isLogAction =
      triageTrace ((st.all_tasks.filter (fun t => !t.isCurrent)).map AsyncTask.outcome) ∧
    (∀ c, Action.logTaskError c ∈ tr ↔
      TaskOutcome.err c ∈
        (st.all_tasks.filter (fun t => !t.isCurrent)).map AsyncTask.outcome) := by
  obtain ⟨st1, tr1, reg, procs, tr2, tr6, h1, h2, h6, hst, htr⟩ := cleanup_ok_inv h
  obtain ⟨hte, hrun, htasks, hos, htr1⟩ := shutdownPoolStage_ok h1
  obtain ⟨_, _, hdr⟩ := drainLoop_props h2
  have hreap := kill_all_threads_props h6
  rw [htasks] at htr
  subst htr
  have hfilter : (tr1 ++ tr2 ++ [Action.sleepFor 1] ++
      ((st.all_tasks.filter (fun t => !t.isCurrent)).map
        (fun t => Action.cancelTask t.tid)) ++
      [Action.sleepFor 1] ++ [Action.gatherJoin none] ++
      triageTrace ((st.all_tasks.filter (fun t => !t.isCurrent)).map AsyncTask.outcome) ++
      tr6).filter isLogAction =
      triageTrace ((st.all_tasks.filter (fun t => !t.isCurrent)).map AsyncTask.outcome) := by
    have f1 : tr1.filter isLogAction = [] := by
      by_cases hc : st.thread_executor.isSome <;>
        simp [hc] at htr1 <;> simp [htr1, isLogAction]
    have f2 : tr2.filter isLogAction = [] := by
      apply List.filter_eq_nil_iff.mpr
      intro a ha
      simp [isSubprocAction_not_log (hdr a ha).1]
    have f4 : ((st.all_tasks.filter (fun t => !t.isCurrent)).map
        (fun t => Action.cancelTask t.tid)).filter isLogAction = [] := by
      apply List.filter_eq_nil_iff.mpr
      intro a ha
      simp [List.mem_map] at ha
      obtain ⟨t, _, hat⟩ := ha
      simp [← hat, isLogAction]
    have f5 : (triageTrace ((st.all_tasks.filter (fun t => !t.isCurrent)).map
        AsyncTask.outcome)).filter isLogAction =
        triageTrace ((st.all_tasks.filter (fun t => !t.isCurrent)).map
          AsyncTask.outcome) := by
      apply List.filter_eq_self.mpr
      intro a ha
      obtain ⟨c, hc, _⟩ := triageTrace_mem ha
      simp [hc, isLogAction]
    have f6 : tr6.filter isLogAction = [] := by
      apply List.filter_eq_nil_iff.mpr
      intro a ha
      simp [isReaperAction_not_log (hreap a ha).1]
    simp [List.filter_append, f1, f2, f4, f5, f6, isLogAction]
  refine ⟨hfilter, ?_⟩
  intro c
  constructor
  · intro hc
    have hmem : Action.logTaskError c ∈ (tr1 ++ tr2 ++ [Action.sleepFor 1] ++
        ((st.all_tasks.filter (fun t => !t.isCurrent)).map
          (fun t => Action.cancelTask t.tid)) ++
        [Action.sleepFor 1] ++ [Action.gatherJoin none] ++
        triageTrace ((st.all_tasks.filter (fun t => !t.isCurrent)).map
          AsyncTask.outcome) ++ tr6).filter isLogAction :=
      List.mem_filter.mpr ⟨hc, rfl⟩
    rw [hfilter] at hmem
    obtain ⟨c2, hc2, hin⟩ := triageTrace_mem hmem
    have : c = c2 := by
      have := hc2
      simp at this
      exact this
    rw [this]
    exact hin
  · intro hc
    have hmem := triageTrace_mem_of_err hc
    rw [← hfilter] at hmem
    exact List.mem_of_mem_filter hmem

theorem cleanup_triage_log_witness :
    cleanup demoState = Except.ok (demoFinal, demoTrace) ∧
    (demoTrace.filter isLogAction =
       triageTrace ((demoState.all_tasks.filter (fun t => !t.isCurrent)).map
         AsyncTask.outcome) ∧
     (∀ c, Action.logTaskError c ∈ demoTrace ↔
       TaskOutcome.err c ∈
         (demoState.all_tasks.filter (fun t => !t.isCurrent)).map AsyncTask.outcome)) :=
  ⟨by rfl, cleanup_triage_log demoState demoFinal demoTrace (by rfl)⟩


/-- C5 counterexample: `procC5` is drained (removed from the registry),
yet after `cleanup()`'s termination protocol its standard-out handle is
still open, because its `close()` raised and the exception was swallowed;
so the claimed "no open stream handles once removed" invariant is false
as stated. -/
theorem drain_open_stream_counterexample :
    drainLoop [procC5] =
      Except.ok ([], [procC5], [Action.closeAttempt 7 StreamName.stdoutS]) ∧
    procC5.stdout.map StreamHandle.isOpen = some true := ⟨rfl, rfl⟩

/-- C7 counterexample: running `cleanup()` with one live cancellable task
reaches the final `asyncio.gather` join, and that suspension point
carries no explicit timeout (`gatherJoin none` is in the trace), so not
every suspension point of `cleanup()` is bounded by an explicit timeout
or fixed delay. -/
theorem cleanup_unbounded_join_counterexample :
    cleanup stateC7 = Except.ok (stateC7, traceC7) ∧
    traceC7.any isUnboundedSuspension = true := ⟨rfl, rfl⟩

/-- C7 (amended): in every completed run, the per-subprocess exit waits
carry the explicit 3-unit timeout, the settle and grace delays are fixed
finite sleeps, and the reaper wait carries the shared 3-unit timeout; the
one and only suspension point with no explicit bound is the final
`asyncio.gather` task join, which occurs exactly once. -/
theorem cleanup_bounded_suspension (st st' : CleanupState) (tr : List Action)
    (h : cleanup st = Except.ok (st', tr)) :
    (∀ a ∈ tr, isUnboundedSuspension a = true → a = Action.gatherJoin none) ∧
    tr.count (Action.gatherJoin none) = 1 := by
  obtain ⟨st1, tr1, reg, procs, tr2, tr6, h1, h2, h6, hst, htr⟩ := cleanup_ok_inv h
  obtain ⟨hte, hrun, htasks, hos, htr1⟩ := shutdownPoolStage_ok h1
  obtain ⟨_, _, hdr⟩ := drainLoop_props h2
  have hreap := kill_all_threads_props h6
  subst htr
  constructor
  · intro a ha hu
    simp only [List.mem_append] at ha
    rcases ha with ((((((ha | ha) | ha) | ha) | ha) | ha) | ha) | ha
    · by_cases hc : st.thread_executor.isSome
      · simp [hc] at htr1
        subst htr1
        simp at ha
        subst ha
        simp [isUnboundedSuspension] at hu
      · simp [hc] at htr1
        subst htr1
        simp at ha
    · have := (hdr a ha).2.1
      rw [hu] at this
      cases this
    · simp at ha
      subst ha
      simp [isUnboundedSuspension] at hu
    · simp [List.mem_map] at ha
      obtain ⟨t, _, hat⟩ := ha
      rw [← hat] at hu
      simp [isUnboundedSuspension] at hu
    · simp at ha
      subst ha
      simp [isUnboundedSuspension] at hu
    · simpa using ha
    · obtain ⟨c, hc, _⟩ := triageTrace_mem ha
      rw [hc] at hu
      simp [isUnboundedSuspension] at hu
    · have := (hreap a ha).2.1
      rw [hu] at this
      cases this
  · have c1 : tr1.count (Action.gatherJoin none) = 0 := by
      by_cases hc : st.thread_executor.isSome <;> simp [hc] at htr1 <;> simp [htr1]
    have c2 : tr2.count (Action.gatherJoin none) = 0 := by
      apply List.count_eq_zero.mpr
      intro hm
      have := (hdr _ hm).1
      simp [isSubprocAction] at this
    have c4 : ((st1.all_tasks.filter (fun t => !t.isCurrent)).map
        (fun t => Action.cancelTask t.tid)).count (Action.gatherJoin none) = 0 := by
      apply List.count_eq_zero.mpr
      intro hm
      simp [List.mem_map] at hm
    have c5 : (triageTrace ((st1.all_tasks.filter (fun t => !t.isCurrent)).map
        AsyncTask.outcome)).count (Action.gatherJoin none) = 0 := by
      apply List.count_eq_zero.mpr
      intro hm
      obtain ⟨c, hc, _⟩ := triageTrace_mem hm
      simp at hc
    have c6 : tr6.count (Action.gatherJoin none) = 0 := by
      apply List.count_eq_zero.mpr
      intro hm
      have := (hreap _ hm).1
      simp [isReaperAction] at this
    simp [List.count_append, c1, c2, c4, c5, c6]

theorem cleanup_bounded_suspension_witness :
    cleanup demoState = Except.ok (demoFinal, demoTrace) ∧
    ((∀ a ∈ demoTrace, isUnboundedSuspension a = true → a = Action.gatherJoin none) ∧
     demoTrace.count (Action.gatherJoin none) = 1) :=
  ⟨by rfl, cleanup_bounded_suspension demoState demoFinal demoTrace (by rfl)⟩

/-- C8: in every completed run there is a contiguous block of
cancellation requests, one per live non-current task (and only those),
placed entirely before the single grace sleep and before the final
gather join begins; no cancellation request occurs anywhere else in the
trace. -/
theorem cleanup_cancellation_order (st st' : CleanupState) (tr : List Action)
    (h : cleanup st = Except.ok (st', tr)) :
    ∃ pre post,
      tr = pre ++ ((st.all_tasks.filter (fun t => !t.isCurrent)).map
          (fun t => Action.cancelTask t.tid)) ++ [Action.sleepFor 1] ++
        [Action.gatherJoin none] ++ post ∧
      (∀ a ∈ pre, isCancel a = false) ∧
      (∀ a ∈ post, isCancel a = false) := by
  obtain ⟨st1, tr1, reg, procs, tr2, tr6, h1, h2, h6, hst, htr⟩ := cleanup_ok_inv h
  obtain ⟨hte, hrun, htasks, hos, htr1⟩ := shutdownPoolStage_ok h1
  obtain ⟨_, _, hdr⟩ := drainLoop_props h2
  have hreap := kill_all_threads_props h6
  rw [htasks] at htr
  subst htr
  refine ⟨tr1 ++ tr2 ++ [Action.sleepFor 1],
    triageTrace ((st.all_tasks.filter (fun t => !t.isCurrent)).map AsyncTask.outcome)
      ++ tr6, ?_, ?_, ?_⟩
  · simp [List.append_assoc]
  · intro a ha
    simp only [List.mem_append] at ha
    rcases ha with (ha | ha) | ha
    · by_cases hc : st.thread_executor.isSome
      · simp [hc] at htr1
        subst htr1
        simp at ha
        subst ha
        simp [isCancel]
      · simp [hc] at htr1
        subst htr1
        simp at ha
    · exact (hdr a ha).2.2
    · simp at ha
      subst ha
      simp [isCancel]
  · intro a ha
    rcases List.mem_append.mp ha with ha | ha
    · obtain ⟨c, hc, _⟩ := triageTrace_mem ha
      simp [hc, isCancel]
    · exact (hreap a ha).2.2

theorem cleanup_cancellation_order_witness :
    cleanup demoState = Except.ok (demoFinal, demoTrace) ∧
    (∃ pre post,
      demoTrace = pre ++ ((demoState.all_tasks.filter (fun t => !t.isCurrent)).map
          (fun t => Action.cancelTask t.tid)) ++ [Action.sleepFor 1] ++
        [Action.gatherJoin none] ++ post ∧
      (∀ a ∈ pre, isCancel a = false) ∧
      (∀ a ∈ post, isCancel a = false)) :=
  ⟨by rfl, cleanup_cancellation_order demoState demoFinal demoTrace (by rfl)⟩

theorem exists_ok_of_exceptOk {α : Type} {e : Except Err α} (h : exceptOk e = true) :
    ∃ x, e = Except.ok x := by
  cases e with
  | ok x => exact ⟨x, rfl⟩
  | error e2 => simp [exceptOk] at h

theorem signalPhase_ok_of_no_raise {p : TrackedSubprocess}
    (h1 : p.terminateRaises = false) (h2 : p.killRaises = false) :
    exceptOk (signalPhase p) = true := by
  cases hr : p.returncode with
  | some r => simp [signalPhase, hr, exceptOk]
  | none =>
      by_cases he : p.exitsWithinTimeout <;>
        simp [signalPhase, hr, h1, h2, he, exceptOk]

theorem drainLoop_ok_of_no_raise :
    ∀ {ps : List TrackedSubprocess},
    (∀ p ∈ ps, p.terminateRaises = false ∧ p.killRaises = false) →
    exceptOk (drainLoop ps) = true := by
  intro ps
  induction ps with
  | nil => intro _; rfl
  | cons p rest ih =>
      intro h
      obtain ⟨hpt, hpk⟩ := h p (List.mem_cons_self p rest)
      obtain ⟨⟨p1, tr1⟩, hs⟩ :=
        exists_ok_of_exceptOk (signalPhase_ok_of_no_raise hpt hpk)
      obtain ⟨⟨reg, procs, tr2⟩, hrest⟩ :=
        exists_ok_of_exceptOk (ih (fun q hq => h q (List.mem_cons_of_mem p hq)))
      simp [drainLoop, procTrace, hs, hrest, exceptOk]

theorem kill_all_threads_ok_of_no_raise {cs : List ReaperChild}
    (h1 : ∀ c ∈ cs, c.terminateRaises = false)
    (h2 : ∀ c ∈ cs, c.killRaises = false) :
    exceptOk (kill_all_threads cs) = true := by
  simp [kill_all_threads, reaperSignalAll_eq h1,
    reaperKillStubborn_eq (fun c hc _ => h2 c hc), exceptOk]

/-- C1 counterexample: the reaper's `child.terminate()` is not wrapped in
any `try/except`, so when the enumerated descendant exits between
enumeration and signalling (psutil then raises `NoSuchProcess`), the
exception escapes `cleanup()` and the final stages never run — refuting
"no exception escapes the call". -/
theorem cleanup_uncaught_exception :
    cleanup stateC1 = Except.error (Err.reaperTermErr 33) := rfl

/-- C1 (amended): every error arising in a *guarded* operation — a
subprocess-exit wait timing out, a stream `close()` raising, or a task
outcome being an exception — is absorbed or reported, and `cleanup()`
runs to completion of all six stages, provided none of the *unguarded*
calls raises (pool `shutdown`, subprocess `terminate`/`kill`, reaper
`terminate`/`kill`); an exception from an unguarded call escapes
`cleanup()`. -/
theorem cleanup_error_absorption (st : CleanupState)
    (h : noUnguardedRaise st = true) :
    exceptOk (cleanup st) = true := by
  rw [noUnguardedRaise] at h
  simp only [Bool.and_eq_true, List.all_eq_true, Bool.not_eq_true'] at h
  obtain ⟨⟨hpool, hprocs⟩, hkids⟩ := h
  obtain ⟨⟨reg, procs, tr2⟩, h2⟩ :=
    exists_ok_of_exceptOk (drainLoop_ok_of_no_raise hprocs)
  obtain ⟨tr6, h6⟩ := exists_ok_of_exceptOk (kill_all_threads_ok_of_no_raise
    (fun c hc => (hkids c hc).1) (fun c hc => (hkids c hc).2))
  cases hte : st.thread_executor with
  | none =>
      have h1 : shutdownPoolStage st = Except.ok (st, []) := by
        simp [shutdownPoolStage, hte]
      simp [cleanup, h1, h2, h6, exceptOk]
  | some hdl =>
      have hsr : hdl.shutdownRaises = false := by
        rw [hte] at hpool
        simpa [Option.all] using hpool
      have h1 : shutdownPoolStage st =
          Except.ok ({ st with thread_executor := none }, [Action.shutdownPool]) := by
        simp [shutdownPoolStage, hte, hsr]
      simp [cleanup, h1, h2, h6, exceptOk]

theorem cleanup_error_absorption_witness :
    noUnguardedRaise demoState = true ∧ exceptOk (cleanup demoState) = true :=
  ⟨by decide, cleanup_error_absorption demoState (by decide)⟩

end CleanupModel
